import Mathlib

/-!
# Standard error adapters of `errbase` (`adapters.go`)

A shallow embedding of `errbase/adapters.go`: the four adapter functions
`decodeErrorString`, `encodePkgFundamental`, `decodeWithMessage`,
`encodePkgWithStack` and the `init` function that registers them.

Go values are modelled as follows.

* Every `GoError` is a non-nil, well-formed value whose methods return.
  `Error`, that is `Option GoError`, is an `error` interface value that is nil
  (`none`) or holds such a value: what the constructors and the decoders
  produce.
* `ErrorValue` is an `error` interface value as a caller can hand it to an
  encoder: besides the above, a nil pointer of a concrete pointer type stored
  in the interface (which is not the nil interface), and a value of any other
  type whose methods may themselves panic.
* A panic is the `Except.error` branch of `Except String`; a function that
  is a plain Lean function (no `Except`) has no panicking path in the source.
* `proto.Message` is an uninterpreted payload, `context.Context` is ignored by
  every adapter.
-/

namespace Errbase

/-! ## Go values used by the adapters -/

/-- Go's `context.Context`. Every adapter binds it to `_`. -/
abbrev Context := Unit

/-- An uninterpreted `proto.Message` value (the structured payload). -/
structure ProtoMessage where
  bytes : List Nat
deriving DecidableEq, Repr

/-- The `StackTrace` type of `github.com/pkg/errors`: a slice of frames, each
frame a program counter (`uintptr`). -/
abbrev StackTrace := List Nat

/-- Rendering of a stack trace by `fmt.Sprintf("%+v", st)`. The text depends on
the symbol tables of the running binary, so it is a parameter of the
development: every result below holds for every such rendering function. -/
abbrev StackFormatter := StackTrace → String

/-- Non-nil error values, by concrete (dynamic) type.

* `errorString` is `*errors.errorString` of the Go standard library, the
  value built by `errors.New`.
* `fundamental`, `withMessage`, `withStack` are the three concrete types of
  `github.com/pkg/errors` built by `New`, `WithMessage`, `WithStack`. The
  constructors of that package only build wrappers around a non-nil cause.
* `opaqueLeaf`, `opaqueWrapper` are the fallback values of `errbase`
  (modelled from the spec, section 3: an Opaque Leaf owns the message and the
  safe details, an Opaque Wrapper owns the message prefix, the safe details
  and its cause).
* `foreignLeaf`, `foreignWrapper` stand for any other concrete error type:
  its package path and type name, the text its `Error` method returns, and
  the stack trace its `StackTrace` method returns when it has that method. -/
inductive GoError where
  | errorString (s : String)
  | fundamental (msg : String) (stack : StackTrace)
  | withMessage (cause : GoError) (msg : String)
  | withStack (cause : GoError) (stack : StackTrace)
  | opaqueLeaf (msg : String) (safeDetails : List String)
  | opaqueWrapper (cause : GoError) (msgPrefix : String) (safeDetails : List String)
  | foreignLeaf (pkgPath typeName text : String) (stack : Option StackTrace)
  | foreignWrapper (pkgPath typeName text : String) (stack : Option StackTrace)
      (cause : GoError)
deriving DecidableEq, Repr

/-- A Go `error` interface value; `none` is nil. -/
abbrev Error := Option GoError

/-- The concrete types an error value can have. -/
inductive GoType where
  | errorString
  | fundamental
  | withMessage
  | withStack
  | opaqueLeaf
  | opaqueWrapper
  | foreign (pkgPath typeName : String)
deriving DecidableEq, Repr

/-- The dynamic type of an error value (what a type assertion to a concrete
type inspects). -/
def GoError.dynType : GoError → GoType
  | .errorString _ => .errorString
  | .fundamental _ _ => .fundamental
  | .withMessage _ _ => .withMessage
  | .withStack _ _ => .withStack
  | .opaqueLeaf _ _ => .opaqueLeaf
  | .opaqueWrapper _ _ _ => .opaqueWrapper
  | .foreignLeaf p t _ _ => .foreign p t
  | .foreignWrapper p t _ _ _ => .foreign p t

/-- The `Error()` method of each concrete type.

* `errorString`: `return e.s`.
* `fundamental`: `return f.msg`.
* `withMessage`: `return w.msg + ": " + w.cause.Error()`.
* `withStack`: the method is promoted from the embedded cause.
* `opaqueLeaf`: the message; `opaqueWrapper`: `prefix: cause.message` when the
  prefix is non-empty, else the cause's message (spec, section 4.4). -/
def GoError.Error : GoError → String
  | .errorString s => s
  | .fundamental msg _ => msg
  | .withMessage cause msg => msg ++ ": " ++ cause.Error
  | .withStack cause _ => cause.Error
  | .opaqueLeaf msg _ => msg
  | .opaqueWrapper cause msgPrefix _ =>
      if msgPrefix = "" then cause.Error else msgPrefix ++ ": " ++ cause.Error
  | .foreignLeaf _ _ text _ => text
  | .foreignWrapper _ _ text _ _ => text

/-- The cause one level down (`Cause()` / `Unwrap()`), `none` for a leaf. -/
def GoError.Cause : GoError → Option GoError
  | .withMessage cause _ => some cause
  | .withStack cause _ => some cause
  | .opaqueWrapper cause _ _ => some cause
  | .foreignWrapper _ _ _ _ cause => some cause
  | _ => none

/-- The nodes met when walking causes from an error inward, outermost first. -/
def GoError.chain : GoError → List GoError
  | .withMessage cause msg => .withMessage cause msg :: cause.chain
  | .withStack cause st => .withStack cause st :: cause.chain
  | .opaqueWrapper cause p sd => .opaqueWrapper cause p sd :: cause.chain
  | .foreignWrapper p t x st cause => .foreignWrapper p t x st cause :: cause.chain
  | e => [e]

/-- The value of the `StackTrace()` method, for the concrete types that have
one: `fundamental` and `withStack` (through their embedded `*stack`), and a
foreign type that declares it. -/
def GoError.StackTrace : GoError → Option StackTrace
  | .fundamental _ stack => some stack
  | .withStack _ stack => some stack
  | .foreignLeaf _ _ _ stack => stack
  | .foreignWrapper _ _ _ stack _ => stack
  | _ => none

/-- Whether the method set of a well-formed value has
`StackTrace() pkgErr.StackTrace`; on such a value the method, when present,
returns. -/
def GoError.hasStackTrace (e : GoError) : Bool := e.StackTrace.isSome

/-- The concrete pointer types of the Go standard library and of
`github.com/pkg/errors` that implement `error`. -/
inductive PointerType where
  | errorString
  | fundamental
  | withMessage
  | withStack
deriving DecidableEq, Repr

/-- Whether the method set of the pointer type has `StackTrace`: `*fundamental`
and `*withStack` have it, promoted from the `*stack` they embed. -/
def PointerType.hasStackTrace : PointerType → Bool
  | .fundamental => true
  | .withStack => true
  | .errorString => false
  | .withMessage => false

/-- A Go `error` interface value as a caller can hand it to an encoder.

* `nil` is the nil interface.
* `value e` holds a well-formed value.
* `nilPointer t` holds a nil pointer of the pointer type `t`; the interface is
  not nil and has the method set of `t`.
* `foreign` holds a value of any other type, given by what its `Error` call
  does and, when its method set has `StackTrace`, what that call does; either
  call may panic (`Except.error`). -/
inductive ErrorValue where
  | nil
  | value (e : GoError)
  | nilPointer (t : PointerType)
  | foreign (pkgPath typeName : String) (error : Except String String)
      (stackTrace : Option (Except String StackTrace))

/-- An `Error` seen as an `ErrorValue`. -/
def ErrorValue.ofError : Error → ErrorValue
  | none => .nil
  | some e => .value e

/-- The panic of reading a field through a nil pointer. -/
def nilDereference : String :=
  "runtime error: invalid memory address or nil pointer dereference"

/-- The method call `err.Error()` on an interface value. A nil interface has no
method to dispatch to and the call panics. On a nil pointer of one of the four
pointer types the method body reads a field of its receiver (`e.s`, `f.msg`,
`w.msg`, `w.error`) and panics. -/
def ErrorValue.callError : ErrorValue → Except String String
  | .nil => .error nilDereference
  | .value e => .ok e.Error
  | .nilPointer _ => .error nilDereference
  | .foreign _ _ error _ => error

/-- The `StackTrace` method of an interface value: `none` when the method set
lacks it, else what calling it does. On a nil `*fundamental` or `*withStack`
the promoted method first reads the embedded `stack` field of the receiver and
panics. -/
def ErrorValue.stackTraceMethod : ErrorValue → Option (Except String StackTrace)
  | .nil => none
  | .value e => e.StackTrace.map .ok
  | .nilPointer t => if t.hasStackTrace then some (.error nilDereference) else none
  | .foreign _ _ _ stackTrace => stackTrace

/-- Whether the interface value holds a value whose method set has
`StackTrace() pkgErr.StackTrace`, whatever calling it does; the nil interface
holds none. -/
def ErrorValue.hasStackTrace (v : ErrorValue) : Bool := v.stackTraceMethod.isSome

/-- An interface value of type `interface{ StackTrace() pkgErr.StackTrace }`,
seen through its only method: what calling it does. -/
structure StackTracer where
  StackTrace : Except String StackTrace

/-- The unchecked type assertion
`err.(interface{ StackTrace() pkgErr.StackTrace })`: it panics on a nil
interface and on a value whose method set lacks `StackTrace`; it inspects the
method set only and calls nothing. -/
def assertStackTracer (err : ErrorValue) : Except String StackTracer :=
  match err.stackTraceMethod with
  | some call => .ok ⟨call⟩
  | none => .error "interface conversion: missing method StackTrace"

/-- Model of `errors.New` of the Go standard library (imported as `goErr`):
`return &errorString{text}`. -/
def goErr.New (text : String) : Error :=
  some (.errorString text)

/-- Model of `New` of `github.com/pkg/errors` (imported as `pkgErr`):
`return &fundamental{msg: message, stack: callers()}`. The captured stack is
whatever `callers()` finds at the call site, here an argument. -/
def pkgErr.New (callers : StackTrace) (message : String) : Error :=
  some (.fundamental message callers)

/-- Model of `WithMessage` of `github.com/pkg/errors`:
`if err == nil { return nil }; return &withMessage{cause: err, msg: message}`. -/
def pkgErr.WithMessage (err : Error) (message : String) : Error :=
  match err with
  | none => none
  | some cause => some (.withMessage cause message)

/-- Model of `WithStack` of `github.com/pkg/errors`:
`if err == nil { return nil }; return &withStack{err, callers()}`. -/
def pkgErr.WithStack (callers : StackTrace) (err : Error) : Error :=
  match err with
  | none => none
  | some cause => some (.withStack cause callers)

/-! ## The adapters of `adapters.go` -/

/-- The values an encoder returns: message (or message prefix), safe details,
payload. -/
abbrev Encoded := String × List String × Option ProtoMessage

/-- Source: `decodeErrorString`, `return goErr.New(msg)`. -/
def decodeErrorString (_ : Context) (msg : String) (_ : List String)
    (_ : Option ProtoMessage) : Error :=
  goErr.New msg

/-- Source: `encodePkgFundamental`. -/
def encodePkgFundamental (sprintfPlusV : StackFormatter) (_ : Context) (err : ErrorValue) :
    Except String Encoded := do
  let msg ← err.callError
  let iErr ← assertStackTracer err
  let safeDetails := [sprintfPlusV (← iErr.StackTrace)]
  return (msg, safeDetails, none)

/-- Source: `decodeWithMessage`, `return pkgErr.WithMessage(cause, msgPrefix)`. -/
def decodeWithMessage (_ : Context) (cause : Error) (msgPrefix : String)
    (_ : List String) (_ : Option ProtoMessage) : Error :=
  pkgErr.WithMessage cause msgPrefix

/-- Source: `encodePkgWithStack`. -/
def encodePkgWithStack (sprintfPlusV : StackFormatter) (_ : Context) (err : ErrorValue) :
    Except String Encoded := do
  let iErr ← assertStackTracer err
  let safeDetails := [sprintfPlusV (← iErr.StackTrace)]
  return ("", safeDetails, none)

/-! ## Type keys and the registry -/

/-- Modelled from the spec: the Type Key (section 4.1; its derivation is not
under src/): a string-like identifier of one concrete error type. -/
abbrev TypeKey := String

/-- Modelled from the spec: the key of a concrete type, package path plus type
name (section 2, item 1), independent of the field values of the error. -/
def GoType.key : GoType → TypeKey
  | .errorString => "errors" ++ "/" ++ "*errors.errorString"
  | .fundamental => "github.com/pkg/errors" ++ "/" ++ "*errors.fundamental"
  | .withMessage => "github.com/pkg/errors" ++ "/" ++ "*errors.withMessage"
  | .withStack => "github.com/pkg/errors" ++ "/" ++ "*errors.withStack"
  | .opaqueLeaf => "github.com/cockroachdb/errors/errbase" ++ "/" ++ "*errbase.opaqueLeaf"
  | .opaqueWrapper =>
      "github.com/cockroachdb/errors/errbase" ++ "/" ++ "*errbase.opaqueWrapper"
  | .foreign pkgPath typeName => pkgPath ++ "/" ++ typeName

/-- Modelled from the spec: `GetTypeKey` (section 4.1; not under src/) returns
the key of the concrete type of an error value. A nil interface has no
concrete type; that call does not return. -/
def GetTypeKey : Error → Except String TypeKey
  | none => .error "GetTypeKey: nil error"
  | some e => .ok e.dynType.key

/-- The type of a leaf encoder: the signature of `encodePkgFundamental`. -/
abbrev LeafEncoder := Context → ErrorValue → Except String Encoded

/-- The type of a leaf decoder: the signature of `decodeErrorString`. -/
abbrev LeafDecoder := Context → String → List String → Option ProtoMessage → Error

/-- The type of a wrapper encoder: the signature of `encodePkgWithStack`. -/
abbrev WrapperEncoder := Context → ErrorValue → Except String Encoded

/-- The type of a wrapper decoder: the signature of `decodeWithMessage`; the
cause is its second argument. -/
abbrev WrapperDecoder :=
  Context → Error → String → List String → Option ProtoMessage → Error

/-- Modelled from the spec: the registry (section 2, item 2; not under src/):
four independent mappings keyed by Type Key. -/
structure Registry where
  leafEncoders : List (TypeKey × LeafEncoder)
  leafDecoders : List (TypeKey × LeafDecoder)
  encoders : List (TypeKey × WrapperEncoder)
  decoders : List (TypeKey × WrapperDecoder)

/-- Modelled from the spec: the registry before any registration (section 3,
lifecycle): four empty mappings. -/
def Registry.empty : Registry := ⟨[], [], [], []⟩

/-- Modelled from the spec: lookup in one mapping (section 4.2): the registered
function or a not-found signal; it never mutates. -/
def lookupIn {α : Type} (m : List (TypeKey × α)) (key : TypeKey) : Option α :=
  m.lookup key

/-- Modelled from the spec: registration in one mapping (section 4.2): inserts
the entry; a key that already has an entry is a programming error, fatal at
init time. -/
def registerIn {α : Type} (m : List (TypeKey × α)) (key : TypeKey) (fn : α) :
    Except String (List (TypeKey × α)) :=
  match lookupIn m key with
  | some _ => .error ("duplicate registration for " ++ key)
  | none => .ok ((key, fn) :: m)

/-- Modelled from the spec: `RegisterLeafDecoder` (section 4.2). -/
def RegisterLeafDecoder (r : Registry) (key : TypeKey) (fn : LeafDecoder) :
    Except String Registry := do
  let m ← registerIn r.leafDecoders key fn
  return { r with leafDecoders := m }

/-- Modelled from the spec: `RegisterLeafEncoder` (section 4.2). -/
def RegisterLeafEncoder (r : Registry) (key : TypeKey) (fn : LeafEncoder) :
    Except String Registry := do
  let m ← registerIn r.leafEncoders key fn
  return { r with leafEncoders := m }

/-- Modelled from the spec: `RegisterWrapperDecoder` (section 4.2). -/
def RegisterWrapperDecoder (r : Registry) (key : TypeKey) (fn : WrapperDecoder) :
    Except String Registry := do
  let m ← registerIn r.decoders key fn
  return { r with decoders := m }

/-- Modelled from the spec: `RegisterWrapperEncoder` (section 4.2). -/
def RegisterWrapperEncoder (r : Registry) (key : TypeKey) (fn : WrapperEncoder) :
    Except String Registry := do
  let m ← registerIn r.encoders key fn
  return { r with encoders := m }

/-- Modelled from the spec: the four lookup entry points (section 4.2). -/
def LookupLeafEncoder (r : Registry) (key : TypeKey) : Option LeafEncoder :=
  lookupIn r.leafEncoders key

/-- Modelled from the spec: leaf-decoder lookup (section 4.2). -/
def LookupLeafDecoder (r : Registry) (key : TypeKey) : Option LeafDecoder :=
  lookupIn r.leafDecoders key

/-- Modelled from the spec: wrapper-encoder lookup (section 4.2). -/
def LookupWrapperEncoder (r : Registry) (key : TypeKey) : Option WrapperEncoder :=
  lookupIn r.encoders key

/-- Modelled from the spec: wrapper-decoder lookup (section 4.2). -/
def LookupWrapperDecoder (r : Registry) (key : TypeKey) : Option WrapperDecoder :=
  lookupIn r.decoders key

/-- Source: `init`. The two stacks are what `callers()` captures inside
`pkgErr.New` and `pkgErr.WithStack` at their call sites. -/
def init (sprintfPlusV : StackFormatter) (callersNew callersWithStack : StackTrace)
    (r : Registry) : Except String Registry := do
  let baseErr := goErr.New ""
  let r ← RegisterLeafDecoder r (← GetTypeKey baseErr) decodeErrorString
  let pkgE := pkgErr.New callersNew ""
  let r ← RegisterLeafEncoder r (← GetTypeKey pkgE) (encodePkgFundamental sprintfPlusV)
  let r ← RegisterWrapperDecoder r (← GetTypeKey (pkgErr.WithMessage baseErr ""))
    decodeWithMessage
  let ws := pkgErr.WithStack callersWithStack baseErr
  RegisterWrapperEncoder r (← GetTypeKey ws) (encodePkgWithStack sprintfPlusV)

/-! ## The encode and decode protocols -/

/-- Modelled from the spec: the Encoded Leaf Record and the Encoded Wrapper
Record (section 3) have the same four fields; `message` is the message prefix
in a wrapper record. -/
structure EncodedRecord where
  message : String
  safeDetails : List String
  payload : Option ProtoMessage
  typeKey : TypeKey
deriving DecidableEq, Repr

/-- Modelled from the spec: the last step of encode (section 4.3 step 4):
package what the encoder returned into the record with the computed Type Key. -/
def EncodedRecord.ofEncoded (key : TypeKey) (enc : Encoded) : EncodedRecord :=
  ⟨enc.1, enc.2.1, enc.2.2, key⟩

/-- Modelled from the spec: generic extraction for a leaf (section 4.3 step 3;
the encode driver is not under src/): message = the rendered text of the
error, no safe details, no payload. -/
def genericLeaf (e : GoError) : Encoded :=
  (e.Error, [], none)

/-- Modelled from the spec: the message prefix of a wrapper as recovered from
rendered texts (the encode driver is not under src/). The spec names the field
the message prefix, renders the fallback wrapper as `prefix: cause.message`
for a non-empty prefix and as the cause's message otherwise, and has the
fallback keep the rendered message (sections 4.4 and 8): the prefix is the
rendered text with the cause's rendered text and the separator `: ` removed
from its end, and is empty when the rendered text does not end that way. -/
def extractPrefix (errMsg causeSuffix : String) : String :=
  if causeSuffix.data.isSuffixOf errMsg.data then
    let pre := errMsg.data.take (errMsg.data.length - causeSuffix.data.length)
    if ": ".data.isSuffixOf pre then String.mk (pre.take (pre.length - 2)) else ""
  else ""

/-- Modelled from the spec: generic extraction for a wrapper (section 4.4):
the message prefix, no safe details, no payload; the cause is not encoded. -/
def genericWrapper (e cause : GoError) : Encoded :=
  (extractPrefix e.Error cause.Error, [], none)

/-- Modelled from the spec: leaf encode (section 4.3; not under src/). -/
def EncodeLeaf (r : Registry) (ctx : Context) (err : Error) :
    Except String EncodedRecord := do
  let key ← GetTypeKey err
  match LookupLeafEncoder r key, err with
  | some enc, _ => return .ofEncoded key (← enc ctx (.ofError err))
  | none, some e => return .ofEncoded key (genericLeaf e)
  | none, none => .error "EncodeLeaf: nil error"

/-- Modelled from the spec: leaf decode (section 4.3; not under src/): the
registered decoder when there is one, else an Opaque Leaf carrying the message
and the safe details. -/
def DecodeLeaf (r : Registry) (ctx : Context) (rec : EncodedRecord) : Error :=
  match LookupLeafDecoder r rec.typeKey with
  | some dec => dec ctx rec.message rec.safeDetails rec.payload
  | none => some (.opaqueLeaf rec.message rec.safeDetails)

/-- Modelled from the spec: wrapper decode (section 4.4; not under src/): the
registered decoder applied to the reconstructed cause when there is one, else
an Opaque Wrapper storing the given cause and the message prefix. -/
def DecodeWrapper (r : Registry) (ctx : Context) (cause : GoError)
    (rec : EncodedRecord) : Error :=
  match LookupWrapperDecoder r rec.typeKey with
  | some dec => dec ctx (some cause) rec.message rec.safeDetails rec.payload
  | none => some (.opaqueWrapper cause rec.message rec.safeDetails)

/-- The decode driver on a flattened chain (spec, section 6): the leaf is
decoded with `decodeErrorString`, then `decodeWithMessage` is folded over the
wrapper records from the innermost outward, each step receiving the value
reconstructed so far as its cause. A wrapper record is its message prefix, its
safe details and its payload. -/
def decodeChain (ctx : Context) (m : String) (wrappers : List Encoded) : Error :=
  wrappers.foldl (fun cause w => decodeWithMessage ctx cause w.1 w.2.1 w.2.2)
    (decodeErrorString ctx m [] none)

/-- A rendering function used in the examples: frame `n` renders as `framen`,
frames separated by a newline. -/
def exampleFormatter : StackFormatter :=
  fun st => "\n".intercalate (st.map (fun pc => "frame" ++ toString pc))

/-! ## Basic facts -/

theorem decodeChain_append (ctx : Context) (m : String) (ws : List Encoded) (w : Encoded) :
    decodeChain ctx m (ws ++ [w])
      = decodeWithMessage ctx (decodeChain ctx m ws) w.1 w.2.1 w.2.2 := by
  simp [decodeChain, List.foldl_append]

theorem chain_ne_nil (e : GoError) : e.chain ≠ [] := by
  cases e <;> simp [GoError.chain]

/-- The chain of an error is the error itself followed by the chain of its
cause, when it has one. -/
theorem chain_walks_causes (e : GoError) :
    e.chain = e :: (match e.Cause with
      | some c => c.chain
      | none => []) := by
  cases e <;> rfl

theorem chain_withMessage (c : GoError) (p : String) :
    (GoError.withMessage c p).chain = GoError.withMessage c p :: c.chain := rfl

theorem take_length_sub {α : Type} (a b : List α) :
    (a ++ b).take ((a ++ b).length - b.length) = a := by
  rw [List.length_append, Nat.add_sub_cancel]
  exact List.take_left' rfl

theorem isSuffixOf_append (a b : List Char) : b.isSuffixOf (a ++ b) = true := by
  rw [List.isSuffixOf_iff_suffix]
  exact List.suffix_append a b

theorem extractPrefix_render (p s : String) : extractPrefix (p ++ ": " ++ s) s = p := by
  have hd : (p ++ ": " ++ s).data = (p.data ++ ": ".data) ++ s.data := by
    simp [String.data_append]
  have hlen : (": ".data).length = 2 := rfl
  unfold extractPrefix
  simp only [hd, isSuffixOf_append, take_length_sub, if_true]
  rw [← hlen, take_length_sub]

/-- The registry `init` builds from the empty one: one entry in each of the
four mappings. -/
theorem init_empty (sprintfPlusV : StackFormatter) (callersNew callersWithStack : StackTrace) :
    init sprintfPlusV callersNew callersWithStack Registry.empty
      = .ok ⟨[(GoType.fundamental.key, encodePkgFundamental sprintfPlusV)],
          [(GoType.errorString.key, decodeErrorString)],
          [(GoType.withStack.key, encodePkgWithStack sprintfPlusV)],
          [(GoType.withMessage.key, decodeWithMessage)]⟩ := rfl

/-! ## The adapters -/

/-- C1: for every message `m`, the bare leaf built from `m`, encoded by generic
extraction (message = its rendered text, no safe details, no payload) and
decoded by `decodeErrorString`, is a non-nil error that renders exactly `m`
and has the bare message-only leaf type of the original; it is the original
value. -/
theorem C1_errorString_round_trip (ctx : Context) (m : String) :
    ∃ e d : GoError, goErr.New m = some e ∧
      decodeErrorString ctx e.Error [] none = some d ∧
      d.Error = m ∧ d.dynType = e.dynType ∧ d.dynType = GoType.errorString ∧ d = e :=
  ⟨.errorString m, .errorString m, rfl, rfl, rfl, rfl, rfl, rfl⟩

/-- C2: for every non-nil cause `c`, prefix `p`, safe details and payload,
`decodeWithMessage` returns a prefix wrapper whose cause is `c` itself and
whose rendered message is `p`, then `": "`, then the rendered message of `c`;
any other safe details and payload give the same result. -/
theorem C2_decodeWithMessage_wraps (ctx : Context) (c : GoError) (p : String)
    (sd : List String) (pl : Option ProtoMessage) :
    ∃ e : GoError, decodeWithMessage ctx (some c) p sd pl = some e ∧
      e = GoError.withMessage c p ∧ e.dynType = GoType.withMessage ∧
      e.Cause = some c ∧ e.Error = p ++ ": " ++ c.Error ∧
      ∀ (sd2 : List String) (pl2 : Option ProtoMessage),
        decodeWithMessage ctx (some c) p sd2 pl2 = some e :=
  ⟨.withMessage c p, rfl, rfl, rfl, rfl, rfl, fun _ _ => rfl⟩

/-- C3: decoding a leaf message `m` with `decodeErrorString` and folding
`decodeWithMessage` over `N` wrapper records, innermost first, gives a chain of
`N + 1` nodes; walking causes from the outermost node visits prefix wrappers
carrying the prefixes from the last to the first, each over the next node, and
ends at the bare leaf of `m`; the outermost rendering is the prefixes from the
last to the first, each followed by `": "`, then `m`. -/
theorem C3_chain_reconstruction (ctx : Context) (m : String) (ws : List Encoded) :
    ∃ e : GoError, decodeChain ctx m ws = some e ∧
      e.chain.length = ws.length + 1 ∧
      List.Forall₂ (fun node p => ∃ c, node = GoError.withMessage c p ∧ node.Cause = some c)
        e.chain.dropLast (ws.map (fun w => w.1)).reverse ∧
      e.chain.getLast? = some (GoError.errorString m) ∧
      (GoError.errorString m).Error = m ∧
      e.Error = (ws.map (fun w => w.1)).foldl (fun acc p => p ++ ": " ++ acc) m := by
  induction ws using List.reverseRecOn with
  | nil =>
    exact ⟨.errorString m, rfl, rfl, by simp [GoError.chain], rfl, rfl, rfl⟩
  | append_singleton ws w ih =>
    obtain ⟨e, hdec, hlen, hwalk, hlast, hleaf, hmsg⟩ := ih
    refine ⟨.withMessage e w.1, ?_, ?_, ?_, ?_, hleaf, ?_⟩
    · rw [decodeChain_append, hdec]; rfl
    · simp [chain_withMessage, hlen]
    · rw [chain_withMessage, List.dropLast_cons_of_ne_nil (chain_ne_nil e)]
      simp only [List.map_append, List.map_cons, List.map_nil, List.reverse_append,
        List.reverse_cons, List.reverse_nil, List.nil_append, List.singleton_append]
      exact List.Forall₂.cons ⟨e, rfl, rfl⟩ hwalk
    · rw [chain_withMessage]
      cases hc : e.chain with
      | nil => exact absurd hc (chain_ne_nil e)
      | cons a l => rw [List.getLast?_cons_cons, ← hc]; exact hlast
    · simp [List.foldl_append, GoError.Error, hmsg]

/-- C4: for every non-nil cause `c` and every prefix `p` (empty, or containing
`": "`, included), the prefix wrapper `e` over `c`, encoded by generic
extraction and decoded by `decodeWithMessage` with cause `c`, is an error with
the rendered message of `e` and the prefix-wrapper type of `e`; it is `e`. The
registry of `init` holds no wrapper encoder for the type of `e`, and wrapper
decode through that registry reaches `decodeWithMessage` with the same result. -/
theorem C4_withMessage_round_trip (sprintfPlusV : StackFormatter)
    (callersNew callersWithStack : StackTrace) (ctx : Context) (c : GoError) (p : String) :
    ∃ e d : GoError, pkgErr.WithMessage (some c) p = some e ∧
      genericWrapper e c = (p, [], none) ∧
      decodeWithMessage ctx (some c) (genericWrapper e c).1 (genericWrapper e c).2.1
        (genericWrapper e c).2.2 = some d ∧
      d.Error = e.Error ∧ d.dynType = e.dynType ∧ d.dynType = GoType.withMessage ∧
      d = e ∧
      ∃ reg : Registry,
        init sprintfPlusV callersNew callersWithStack Registry.empty = .ok reg ∧
        LookupWrapperEncoder reg e.dynType.key = none ∧
        DecodeWrapper reg ctx c (.ofEncoded e.dynType.key (genericWrapper e c)) = some d := by
  have hgen : genericWrapper (GoError.withMessage c p) c = (p, [], none) := by
    simp [genericWrapper, GoError.Error, extractPrefix_render]
  refine ⟨.withMessage c p, .withMessage c p, rfl, hgen, ?_, rfl, rfl, rfl, rfl,
    _, init_empty sprintfPlusV callersNew callersWithStack, rfl, ?_⟩
  · rw [hgen]; rfl
  · rw [hgen]; rfl

/-- C5: for every error `e` exposing a captured stack trace `st`,
`encodePkgFundamental` returns the rendered text of `e` as message, the
one-element safe-detail list holding the verbose rendering of `st`, and no
payload. -/
theorem C5_encodePkgFundamental (sprintfPlusV : StackFormatter) (ctx : Context)
    (e : GoError) (st : StackTrace) (h : e.StackTrace = some st) :
    encodePkgFundamental sprintfPlusV ctx (.value e)
      = .ok (e.Error, [sprintfPlusV st], none) := by
  simp [encodePkgFundamental, ErrorValue.callError, assertStackTracer,
    ErrorValue.stackTraceMethod, h, bind, Except.bind, pure, Except.pure]

/-- The stack-capturing leaf `boom` with two captured frames. -/
theorem C5_encodePkgFundamental_witness :
    (GoError.fundamental "boom" [1, 2]).StackTrace = some [1, 2] ∧
    encodePkgFundamental exampleFormatter ()
        (.value (GoError.fundamental "boom" [1, 2]))
      = .ok ((GoError.fundamental "boom" [1, 2]).Error, [exampleFormatter [1, 2]], none) :=
  ⟨rfl, C5_encodePkgFundamental exampleFormatter () (.fundamental "boom" [1, 2]) [1, 2] rfl⟩

/-- C6: for every error `e` exposing a captured stack trace `st`, whatever its
cause, `encodePkgWithStack` returns the empty message prefix, the one-element
safe-detail list holding the verbose rendering of `st`, and no payload; any
other error exposing the same stack trace gives the same output. -/
theorem C6_encodePkgWithStack (sprintfPlusV : StackFormatter) (ctx : Context)
    (e e2 : GoError) (st : StackTrace) (h : e.StackTrace = some st)
    (h2 : e2.StackTrace = some st) :
    encodePkgWithStack sprintfPlusV ctx (.value e) = .ok ("", [sprintfPlusV st], none) ∧
    encodePkgWithStack sprintfPlusV ctx (.value e2)
      = encodePkgWithStack sprintfPlusV ctx (.value e) := by
  simp [encodePkgWithStack, assertStackTracer, ErrorValue.stackTraceMethod, h, h2, bind,
    Except.bind, pure, Except.pure]

/-- Two stack-capturing wrappers with the same two frames over different
causes. -/
theorem C6_encodePkgWithStack_witness :
    (GoError.withStack (.errorString "file not found") [1, 2]).StackTrace = some [1, 2] ∧
    (GoError.withStack (.withMessage (.errorString "eof") "read") [1, 2]).StackTrace
      = some [1, 2] ∧
    (encodePkgWithStack exampleFormatter ()
        (.value (GoError.withStack (.errorString "file not found") [1, 2]))
      = .ok ("", [exampleFormatter [1, 2]], none) ∧
    encodePkgWithStack exampleFormatter ()
        (.value (GoError.withStack (.withMessage (.errorString "eof") "read") [1, 2]))
      = encodePkgWithStack exampleFormatter ()
        (.value (GoError.withStack (.errorString "file not found") [1, 2]))) :=
  ⟨rfl, rfl, C6_encodePkgWithStack exampleFormatter ()
    (.withStack (.errorString "file not found") [1, 2])
    (.withStack (.withMessage (.errorString "eof") "read") [1, 2]) [1, 2] rfl rfl⟩

/-- C7: with the registry as populated by `init`, a stack-capturing leaf with
rendered text `msg` and stack trace `st`, encoded with `encodePkgFundamental`
(the encoder the leaf encode finds) and decoded, gives an Opaque Leaf whose
message is `msg` and whose safe-detail list is the rendering of `st` alone. -/
theorem C7_fundamental_falls_back_to_opaqueLeaf (sprintfPlusV : StackFormatter)
    (callersNew callersWithStack : StackTrace) (ctx : Context) (msg : String)
    (st : StackTrace) :
    ∃ (reg : Registry) (rec : EncodedRecord),
      init sprintfPlusV callersNew callersWithStack Registry.empty = .ok reg ∧
      LookupLeafDecoder reg rec.typeKey = none ∧
      GetTypeKey (some (GoError.fundamental msg st)) = .ok rec.typeKey ∧
      (encodePkgFundamental sprintfPlusV ctx (.value (GoError.fundamental msg st))).map
        (EncodedRecord.ofEncoded rec.typeKey) = .ok rec ∧
      EncodeLeaf reg ctx (some (GoError.fundamental msg st)) = .ok rec ∧
      rec.message = msg ∧ rec.safeDetails = [sprintfPlusV st] ∧
      DecodeLeaf reg ctx rec = some (GoError.opaqueLeaf msg [sprintfPlusV st]) ∧
      (GoError.opaqueLeaf msg [sprintfPlusV st]).Error = msg :=
  ⟨_, ⟨msg, [sprintfPlusV st], none, GoType.fundamental.key⟩,
    init_empty sprintfPlusV callersNew callersWithStack, rfl, rfl, rfl, rfl, rfl, rfl, rfl,
    rfl⟩

/-- C8: from the empty registry `init` completes, and in the registry it leaves
the leaf decoder of the bare leaf type is `decodeErrorString`, the leaf encoder
of the stack-capturing leaf type is `encodePkgFundamental`, the wrapper decoder
of the prefix-wrapper type is `decodeWithMessage`, the wrapper encoder of the
stack-capturing wrapper type is `encodePkgWithStack`; there is no leaf decoder
for the stack-capturing leaf type, no wrapper decoder for the stack-capturing
wrapper type, no encoder for the two exact types; each of the four mappings
holds exactly one entry, and the keys used are the type keys of the values
`init` builds. -/
theorem C8_init_registrations (sprintfPlusV : StackFormatter)
    (callersNew callersWithStack : StackTrace) :
    ∃ reg : Registry,
      init sprintfPlusV callersNew callersWithStack Registry.empty = .ok reg ∧
      (GetTypeKey (goErr.New "") = .ok GoType.errorString.key ∧
        GetTypeKey (pkgErr.New callersNew "") = .ok GoType.fundamental.key ∧
        GetTypeKey (pkgErr.WithMessage (goErr.New "") "") = .ok GoType.withMessage.key ∧
        GetTypeKey (pkgErr.WithStack callersWithStack (goErr.New ""))
          = .ok GoType.withStack.key) ∧
      (LookupLeafDecoder reg GoType.errorString.key = some decodeErrorString ∧
        LookupLeafEncoder reg GoType.fundamental.key
          = some (encodePkgFundamental sprintfPlusV) ∧
        LookupWrapperDecoder reg GoType.withMessage.key = some decodeWithMessage ∧
        LookupWrapperEncoder reg GoType.withStack.key
          = some (encodePkgWithStack sprintfPlusV)) ∧
      (LookupLeafDecoder reg GoType.fundamental.key = none ∧
        LookupWrapperDecoder reg GoType.withStack.key = none) ∧
      (LookupLeafEncoder reg GoType.errorString.key = none ∧
        LookupWrapperEncoder reg GoType.errorString.key = none ∧
        LookupLeafEncoder reg GoType.withMessage.key = none ∧
        LookupWrapperEncoder reg GoType.withMessage.key = none) ∧
      (reg.leafDecoders.length = 1 ∧ reg.leafEncoders.length = 1 ∧
        reg.decoders.length = 1 ∧ reg.encoders.length = 1) :=
  ⟨_, init_empty sprintfPlusV callersNew callersWithStack, ⟨rfl, rfl, rfl, rfl⟩,
    ⟨rfl, rfl, rfl, rfl⟩, ⟨rfl, rfl⟩, ⟨rfl, rfl, rfl, rfl⟩, ⟨rfl, rfl, rfl, rfl⟩⟩

/-- C9, as the claim states it, fails for the nil cause: `decodeWithMessage`
returns nil there, no wrapper. -/
theorem C9_nil_cause_counterexample :
    decodeWithMessage () none "while loading config" [] none = none ∧
    ¬ ∃ e : GoError, decodeWithMessage () none "while loading config" [] none = some e ∧
        e.Cause = none := by
  refine ⟨rfl, ?_⟩
  rintro ⟨e, h, -⟩
  exact absurd h (by simp [decodeWithMessage, pkgErr.WithMessage])

/-- C9 (amended): for every non-nil cause and every prefix, safe details and
payload, `decodeWithMessage` returns (it has no panicking path) a non-nil new
prefix wrapper whose cause is exactly the value given; for the nil cause it
returns nil. -/
theorem C9_decodeWithMessage_total (ctx : Context) (p : String) (sd : List String)
    (pl : Option ProtoMessage) :
    (∀ c : GoError, ∃ e : GoError, decodeWithMessage ctx (some c) p sd pl = some e ∧
      e.dynType = GoType.withMessage ∧ e.Cause = some c) ∧
    decodeWithMessage ctx none p sd pl = none :=
  ⟨fun c => ⟨.withMessage c p, rfl, rfl, rfl⟩, rfl⟩

/-- C10, as the claim states it, fails for a nil pointer of a type that has
the accessor: a nil `*withStack` stored in the interface exposes `StackTrace`,
passes the assertion, and `encodePkgWithStack` panics in the `StackTrace` call;
a nil `*fundamental` exposes it and `encodePkgFundamental` panics in the
`Error` call. -/
theorem C10_typed_nil_counterexample :
    ((ErrorValue.nilPointer .withStack).hasStackTrace = true ∧
      (∃ iErr, assertStackTracer (.nilPointer .withStack) = .ok iErr) ∧
      encodePkgWithStack exampleFormatter () (.nilPointer .withStack)
        = .error nilDereference ∧
      ¬ ((∃ r, encodePkgWithStack exampleFormatter () (.nilPointer .withStack) = .ok r)
          ↔ (ErrorValue.nilPointer .withStack).hasStackTrace = true)) ∧
    ((ErrorValue.nilPointer .fundamental).hasStackTrace = true ∧
      encodePkgFundamental exampleFormatter () (.nilPointer .fundamental)
        = .error nilDereference ∧
      ¬ ((∃ r, encodePkgFundamental exampleFormatter () (.nilPointer .fundamental) = .ok r)
          ↔ (ErrorValue.nilPointer .fundamental).hasStackTrace = true)) := by
  refine ⟨⟨rfl, ⟨_, rfl⟩, rfl, ?_⟩, rfl, rfl, ?_⟩
  · intro h
    obtain ⟨r, hr⟩ := h.mpr rfl
    exact absurd hr (by simp [encodePkgWithStack, assertStackTracer,
      ErrorValue.stackTraceMethod, PointerType.hasStackTrace, bind, Except.bind])
  · intro h
    obtain ⟨r, hr⟩ := h.mpr rfl
    exact absurd hr (by simp [encodePkgFundamental, ErrorValue.callError, bind, Except.bind])

/-- C10 (amended): each of `encodePkgFundamental` and `encodePkgWithStack`
panics, and returns no failure value, for any error lacking the `StackTrace`
accessor (a nil error included), so it completes only if the error exposes the
accessor. The unchecked assertion succeeds exactly when the accessor is there.
`encodePkgWithStack` returns exactly when the accessor is there and the
`StackTrace` call returns; `encodePkgFundamental` exactly when moreover the
`Error` call returns. For a non-nil well-formed value, whose methods return,
each encoder returns if and only if the value exposes the accessor. -/
theorem C10_stack_encoders_panic_iff (sprintfPlusV : StackFormatter) (ctx : Context)
    (err : ErrorValue) :
    (err.hasStackTrace = false →
      (∃ msg, encodePkgFundamental sprintfPlusV ctx err = .error msg) ∧
      (∃ msg, encodePkgWithStack sprintfPlusV ctx err = .error msg)) ∧
    ((∃ iErr, assertStackTracer err = .ok iErr) ↔ err.hasStackTrace = true) ∧
    ((∃ r, encodePkgFundamental sprintfPlusV ctx err = .ok r)
        ↔ err.hasStackTrace = true ∧ (∃ m, err.callError = .ok m) ∧
          ∃ st, err.stackTraceMethod = some (.ok st)) ∧
    ((∃ r, encodePkgWithStack sprintfPlusV ctx err = .ok r)
        ↔ err.hasStackTrace = true ∧ ∃ st, err.stackTraceMethod = some (.ok st)) ∧
    ((∃ msg, encodePkgFundamental sprintfPlusV ctx err = .error msg)
        ↔ ¬ ∃ r, encodePkgFundamental sprintfPlusV ctx err = .ok r) ∧
    ((∃ msg, encodePkgWithStack sprintfPlusV ctx err = .error msg)
        ↔ ¬ ∃ r, encodePkgWithStack sprintfPlusV ctx err = .ok r) ∧
    (∀ e : GoError,
      ((∃ r, encodePkgFundamental sprintfPlusV ctx (.value e) = .ok r)
        ↔ (ErrorValue.value e).hasStackTrace = true) ∧
      ((∃ r, encodePkgWithStack sprintfPlusV ctx (.value e) = .ok r)
        ↔ (ErrorValue.value e).hasStackTrace = true)) := by
  have key : ∀ v : ErrorValue,
      (v.hasStackTrace = false →
        (∃ msg, encodePkgFundamental sprintfPlusV ctx v = .error msg) ∧
        (∃ msg, encodePkgWithStack sprintfPlusV ctx v = .error msg)) ∧
      ((∃ iErr, assertStackTracer v = .ok iErr) ↔ v.hasStackTrace = true) ∧
      ((∃ r, encodePkgFundamental sprintfPlusV ctx v = .ok r)
          ↔ v.hasStackTrace = true ∧ (∃ m, v.callError = .ok m) ∧
            ∃ st, v.stackTraceMethod = some (.ok st)) ∧
      ((∃ r, encodePkgWithStack sprintfPlusV ctx v = .ok r)
          ↔ v.hasStackTrace = true ∧ ∃ st, v.stackTraceMethod = some (.ok st)) ∧
      ((∃ msg, encodePkgFundamental sprintfPlusV ctx v = .error msg)
          ↔ ¬ ∃ r, encodePkgFundamental sprintfPlusV ctx v = .ok r) ∧
      ((∃ msg, encodePkgWithStack sprintfPlusV ctx v = .error msg)
          ↔ ¬ ∃ r, encodePkgWithStack sprintfPlusV ctx v = .ok r) := by
    intro v
    cases hc : v.callError <;> cases hs : v.stackTraceMethod with
    | none =>
      simp [encodePkgFundamental, encodePkgWithStack, assertStackTracer,
        ErrorValue.hasStackTrace, hc, hs, bind, Except.bind, pure, Except.pure]
    | some call =>
      cases call <;>
      simp [encodePkgFundamental, encodePkgWithStack, assertStackTracer,
        ErrorValue.hasStackTrace, hc, hs, bind, Except.bind, pure, Except.pure]
  obtain ⟨k1, k2, k3, k4, k5, k6⟩ := key err
  refine ⟨k1, k2, k3, k4, k5, k6, fun e => ?_⟩
  obtain ⟨-, -, f3, f4, -, -⟩ := key (.value e)
  rw [f3, f4]
  cases hst : e.StackTrace <;>
  simp [ErrorValue.hasStackTrace, ErrorValue.stackTraceMethod, ErrorValue.callError, hst]

/-! ## The scenarios of the spec, evaluated -/

/-- The bare leaf built from `boom` decodes from its generic encoding to the
bare leaf rendering `boom`. -/
theorem scenario_boom :
    decodeErrorString () (GoError.errorString "boom").Error [] none
      = some (GoError.errorString "boom") ∧
    (GoError.errorString "boom").Error = "boom" := by
  decide

/-- A wrapper with prefix `while loading config` over the leaf `file not found`
decodes, node by node, to an error rendering both joined by `": "`. -/
theorem scenario_loading_config :
    (decodeChain () "file not found" [("while loading config", [], none)]).map
        GoError.Error
      = some "while loading config: file not found" ∧
    extractPrefix "while loading config: file not found" "file not found"
      = "while loading config" ∧
    extractPrefix ": file not found" "file not found" = "" ∧
    extractPrefix "a: b: file not found" "file not found" = "a: b" := by
  decide

/-- A stack-capturing leaf whose stack renders as `frame1`, newline, `frame2`
decodes, with the registry of `init`, to an Opaque Leaf carrying that text. -/
theorem scenario_fake_stack :
    exampleFormatter [1, 2] = "frame1\nframe2" ∧
    (init exampleFormatter [] [] Registry.empty >>= fun reg =>
      EncodeLeaf reg () (some (GoError.fundamental "boom" [1, 2])) >>= fun rec =>
        pure (DecodeLeaf reg () rec))
      = .ok (some (GoError.opaqueLeaf "boom" ["frame1\nframe2"])) := by
  constructor
  · decide
  · rfl

end Errbase
